import Mathlib

/-!
Verification of the HCM signalized-intersection engine.

The Python engine (`src/hcm_engine/`) is a pure, deterministic pipeline:
saturation flow → capacity → v/c ratio → control delay → LOS grade.
We embed it shallowly: floats become exact rationals (reals where the code
calls `math.sqrt`), Python's `round` (banker's rounding to `n` decimal
places) becomes `roundTo`, and functions that `raise ValueError` become
`Except String` values carrying the source's error message.
-/

namespace HCM

/-- Round-half-to-even to the nearest integer, the rounding mode of
Python's built-in `round`.  Generic over ℚ and ℝ so the rational and real
parts of the pipeline share one definition. -/
def rhe {α : Type} [LinearOrderedField α] [FloorRing α] (x : α) : ℤ :=
  if x - ⌊x⌋ < 1/2 then ⌊x⌋
  else if 1/2 < x - ⌊x⌋ then ⌊x⌋ + 1
  else if ⌊x⌋ % 2 = 0 then ⌊x⌋ else ⌊x⌋ + 1

/-- Python's `round(x, n)`: round half to even at `n` decimal places. -/
def roundTo {α : Type} [LinearOrderedField α] [FloorRing α] (n : ℕ) (x : α) : α :=
  (rhe (x * 10 ^ n) : α) / 10 ^ n

/-- `models.LevelOfService`: HCM LOS grades. -/
inductive LevelOfService where
  | A | B | C | D | E | F
  deriving DecidableEq

/-- `models.MovementType`: lane-group movement types. -/
inductive MovementType where
  | through | left | right | through_right | through_left | left_right | all
  deriving DecidableEq

/-- `models.SignalControlType`. -/
inductive SignalControlType where
  | pretimed | actuated_uncoordinated | actuated_coordinated
  deriving DecidableEq

/-- `models.SignalTimingInput` (fields only; the pydantic validation is the
predicate `ValidTiming` below). -/
structure SignalTimingInput where
  cycle_length : ℚ
  effective_green : ℚ
  control_type : SignalControlType

/-- `models.LaneGroupInput` (fields only; the pydantic validation is the
predicate `Valid` below). -/
structure LaneGroupInput where
  volume : ℚ
  num_lanes : ℕ
  movement_type : MovementType
  base_saturation_flow : ℚ
  lane_width : ℚ
  heavy_vehicle_pct : ℚ
  grade_pct : ℚ
  parking_adjacent : Bool
  parking_maneuvers_per_hour : ℚ
  bus_stops_per_hour : ℚ
  area_type : String
  left_turn_pct : ℚ
  right_turn_pct : ℚ
  signal_timing : SignalTimingInput
  analysis_period_hours : ℚ
  upstream_filtering_factor : ℚ

/-- Construction-time validation of `SignalTimingInput`: `cycle_length`
in (0, 300], `effective_green` > 0 and ≤ `cycle_length`. -/
def ValidTiming (t : SignalTimingInput) : Prop :=
  0 < t.cycle_length ∧ t.cycle_length ≤ 300 ∧
  0 < t.effective_green ∧ t.effective_green ≤ t.cycle_length

/-- Construction-time validation of `LaneGroupInput`, exactly the pydantic
field constraints of `models.LaneGroupInput`. -/
def Valid (i : LaneGroupInput) : Prop :=
  0 ≤ i.volume ∧
  1 ≤ i.num_lanes ∧ i.num_lanes ≤ 8 ∧
  0 < i.base_saturation_flow ∧
  8 < i.lane_width ∧ i.lane_width ≤ 24 ∧
  0 ≤ i.heavy_vehicle_pct ∧ i.heavy_vehicle_pct ≤ 100 ∧
  -10 ≤ i.grade_pct ∧ i.grade_pct ≤ 10 ∧
  0 ≤ i.parking_maneuvers_per_hour ∧
  0 ≤ i.bus_stops_per_hour ∧
  (i.area_type = "cbd" ∨ i.area_type = "other") ∧
  0 ≤ i.left_turn_pct ∧ i.left_turn_pct ≤ 100 ∧
  0 ≤ i.right_turn_pct ∧ i.right_turn_pct ≤ 100 ∧
  ValidTiming i.signal_timing ∧
  0 < i.analysis_period_hours ∧ i.analysis_period_hours ≤ 1 ∧
  0 ≤ i.upstream_filtering_factor ∧ i.upstream_filtering_factor ≤ 1

instance (t : SignalTimingInput) : Decidable (ValidTiming t) := by
  unfold ValidTiming; infer_instance

instance (i : LaneGroupInput) : Decidable (Valid i) := by
  unfold Valid; infer_instance

/-! ## Saturation flow (`saturation_flow.py`) -/

/-- `compute_lane_width_factor`: `fw = 1 + (W - 12)/30`, bounded to
[0.87, 1.07]. -/
def compute_lane_width_factor (lane_width : ℚ) : ℚ :=
  max 0.87 (min (1 + (lane_width - 12) / 30) 1.07)

/-- `compute_heavy_vehicle_factor`: `fHV = 100 / (100 + %HV * (ET - 1))`,
`ET = 2.0`. -/
def compute_heavy_vehicle_factor (heavy_vehicle_pct : ℚ) : ℚ :=
  100 / (100 + heavy_vehicle_pct * (2 - 1))

/-- `compute_grade_factor`: `fg = 1 - %G / 200`. -/
def compute_grade_factor (grade_pct : ℚ) : ℚ :=
  1 - grade_pct / 200

/-- `compute_parking_factor`: 1.0 when no adjacent parking or no
maneuvers, else `(N - 0.1 - 18 Nm / 3600) / N` bounded to [0.05, 1]. -/
def compute_parking_factor (parking_adjacent : Bool)
    (parking_maneuvers_per_hour : ℚ) (num_lanes : ℕ) : ℚ :=
  if parking_adjacent = false ∨ parking_maneuvers_per_hour = 0 then 1
  else
    max 0.05 (min ((num_lanes - 0.1 - 18 * parking_maneuvers_per_hour / 3600)
      / num_lanes) 1)

/-- `compute_bus_blockage_factor`: 1.0 when no stops, else
`(N - 14.4 Nb / 3600) / N` bounded to [0.05, 1]. -/
def compute_bus_blockage_factor (bus_stops_per_hour : ℚ) (num_lanes : ℕ) : ℚ :=
  if bus_stops_per_hour = 0 then 1
  else max 0.05 (min ((num_lanes - 14.4 * bus_stops_per_hour / 3600)
    / num_lanes) 1)

/-- `compute_area_type_factor`: 0.90 when the lower-cased area type is
"cbd", else 1.00. -/
def compute_area_type_factor (area_type : String) : ℚ :=
  if area_type.toLower = "cbd" then 0.9 else 1

/-- `compute_left_turn_factor`: 0.95 for an exclusive left lane,
`1 / (1 + 0.05 PLT)` for a shared lane, else 1. -/
def compute_left_turn_factor (movement_type : MovementType)
    (left_turn_pct : ℚ) : ℚ :=
  if movement_type = .left then 0.95
  else if movement_type = .through_left ∨ movement_type = .all then
    1 / (1 + 0.05 * (left_turn_pct / 100))
  else 1

/-- `compute_right_turn_factor`: 0.85 for an exclusive right lane,
`max 0.05 (1 - 0.15 PRT)` for a shared lane, else 1. -/
def compute_right_turn_factor (movement_type : MovementType)
    (right_turn_pct : ℚ) : ℚ :=
  if movement_type = .right then 0.85
  else if movement_type = .through_right ∨ movement_type = .left_right ∨
      movement_type = .all then
    max 0.05 (1 - 0.15 * (right_turn_pct / 100))
  else 1

/-- `models.SaturationFlowResult`. -/
structure SaturationFlowResult where
  base_saturation_flow : ℚ
  adjusted_saturation_flow : ℚ
  total_saturation_flow : ℚ
  f_w : ℚ
  f_hv : ℚ
  f_g : ℚ
  f_p : ℚ
  f_bb : ℚ
  f_a : ℚ
  f_lt : ℚ
  f_rt : ℚ
  deriving DecidableEq

/-- The unrounded per-lane adjusted saturation flow
`s0 * fw * fHV * fg * fp * fbb * fa * fLT * fRT` of
`compute_saturation_flow`. -/
def s_adjusted_raw (i : LaneGroupInput) : ℚ :=
  i.base_saturation_flow
    * compute_lane_width_factor i.lane_width
    * compute_heavy_vehicle_factor i.heavy_vehicle_pct
    * compute_grade_factor i.grade_pct
    * compute_parking_factor i.parking_adjacent i.parking_maneuvers_per_hour
        i.num_lanes
    * compute_bus_blockage_factor i.bus_stops_per_hour i.num_lanes
    * compute_area_type_factor i.area_type
    * compute_left_turn_factor i.movement_type i.left_turn_pct
    * compute_right_turn_factor i.movement_type i.right_turn_pct

/-- `compute_saturation_flow`: all eight factors, the adjusted flow and the
lane-group total, rounded exactly as the source rounds them. -/
def compute_saturation_flow (i : LaneGroupInput) : SaturationFlowResult :=
  { base_saturation_flow := i.base_saturation_flow
    adjusted_saturation_flow := roundTo 1 (s_adjusted_raw i)
    total_saturation_flow := roundTo 1 (s_adjusted_raw i * i.num_lanes)
    f_w := roundTo 4 (compute_lane_width_factor i.lane_width)
    f_hv := roundTo 4 (compute_heavy_vehicle_factor i.heavy_vehicle_pct)
    f_g := roundTo 4 (compute_grade_factor i.grade_pct)
    f_p := roundTo 4 (compute_parking_factor i.parking_adjacent
      i.parking_maneuvers_per_hour i.num_lanes)
    f_bb := roundTo 4 (compute_bus_blockage_factor i.bus_stops_per_hour
      i.num_lanes)
    f_a := roundTo 4 (compute_area_type_factor i.area_type)
    f_lt := roundTo 4 (compute_left_turn_factor i.movement_type
      i.left_turn_pct)
    f_rt := roundTo 4 (compute_right_turn_factor i.movement_type
      i.right_turn_pct) }

/-! ## Capacity and v/c ratio (`capacity.py`) -/

/-- `compute_capacity`: `c = s * (g/C)` rounded to 1 decimal, after the
source's four defensive checks (each `raise ValueError` becomes
`Except.error` with the source's message). -/
def compute_capacity (saturation_flow effective_green cycle_length : ℚ) :
    Except String ℚ :=
  if cycle_length ≤ 0 then .error "cycle_length must be positive"
  else if effective_green < 0 then .error "effective_green cannot be negative"
  else if effective_green > cycle_length then
    .error "effective_green cannot exceed cycle_length"
  else if saturation_flow < 0 then .error "saturation_flow cannot be negative"
  else .ok (roundTo 1 (saturation_flow * (effective_green / cycle_length)))

/-- `compute_vc_ratio`: `X = v/c` rounded to 4 decimals, after the source's
two defensive checks. -/
def compute_vc_ratio (volume capacity : ℚ) : Except String ℚ :=
  if capacity ≤ 0 then .error "capacity must be positive"
  else if volume < 0 then .error "volume cannot be negative"
  else .ok (roundTo 4 (volume / capacity))

/-! ## Control delay (`delay.py`) -/

/-- `compute_uniform_delay`: HCM Eq. 19-18 with the `min(1, X)` cap and the
0.001 denominator floor, rounded to 2 decimals. -/
def compute_uniform_delay (effective_green cycle_length vc_ratio : ℚ) :
    Except String ℚ :=
  if cycle_length ≤ 0 then .error "cycle_length must be positive"
  else
    let g_over_C := effective_green / cycle_length
    let X_effective := min 1 vc_ratio
    let numerator := 0.5 * cycle_length * (1 - g_over_C) ^ 2
    let denominator := 1 - X_effective * g_over_C
    let denominator' := if denominator ≤ 0.001 then 0.001 else denominator
    .ok (roundTo 2 (numerator / denominator'))

/-- `get_incremental_delay_factor`: k = 0.45 for actuated-coordinated
control, 0.50 otherwise. -/
def get_incremental_delay_factor (control_type : SignalControlType) : ℚ :=
  if control_type = .actuated_coordinated then 0.45 else 0.50

/-- `compute_incremental_delay`: HCM Eq. 19-19,
`d2 = 900 T ((X-1) + sqrt((X-1)^2 + 8 k I X / (c T)))`, floored at 0 and
rounded to 2 decimals.  The square-root argument is computed exactly (it
is rational); `math.sqrt` raises `ValueError("math domain error")` on a
negative argument, modelled as the third error branch, and is ℝ-valued on
a nonnegative one. -/
noncomputable def compute_incremental_delay (vc_ratio capacity
    analysis_period_hours : ℚ) (control_type : SignalControlType)
    (upstream_filtering_factor : ℚ) : Except String ℝ :=
  if capacity ≤ 0 then .error "capacity must be positive"
  else if analysis_period_hours ≤ 0 then
    .error "analysis_period_hours must be positive"
  else
    let X := vc_ratio
    let c := capacity
    let T := analysis_period_hours
    let k := get_incremental_delay_factor control_type
    let I := upstream_filtering_factor
    let term2 : ℚ := (X - 1) ^ 2
    let term3 : ℚ := 8 * k * I * X / (c * T)
    if term2 + term3 < 0 then .error "math domain error"
    else
      let d2 : ℝ := 900 * (T : ℝ) *
        (((X : ℝ) - 1) + Real.sqrt ((term2 + term3 : ℚ) : ℝ))
      .ok (roundTo 2 (max 0 d2))

/-- `compute_control_delay`: pairs d1 and d2 with their 2-decimal-rounded
sum. -/
noncomputable def compute_control_delay (effective_green cycle_length
    vc_ratio capacity analysis_period_hours : ℚ)
    (control_type : SignalControlType) (upstream_filtering_factor : ℚ) :
    Except String (ℚ × ℝ × ℝ) := do
  let d1 ← compute_uniform_delay effective_green cycle_length vc_ratio
  let d2 ← compute_incremental_delay vc_ratio capacity analysis_period_hours
    control_type upstream_filtering_factor
  return (d1, d2, roundTo 2 ((d1 : ℝ) + d2))

/-! ## LOS classification (`los.py`) -/

/-- `classify_los`: ascending threshold chain A ≤ 10 < B ≤ 20 < C ≤ 35 <
D ≤ 55 < E ≤ 80 < F, rejecting negative delay. -/
noncomputable def classify_los (control_delay : ℝ) :
    Except String LevelOfService :=
  if control_delay < 0 then .error "control_delay cannot be negative"
  else if control_delay ≤ 10 then .ok .A
  else if control_delay ≤ 20 then .ok .B
  else if control_delay ≤ 35 then .ok .C
  else if control_delay ≤ 55 then .ok .D
  else if control_delay ≤ 80 then .ok .E
  else .ok .F

/-! ## Orchestrator (`engine.py`) -/

/-- `__engine_version__` of the package. -/
def engineVersion : String := "HCM6-SIG-0.1.0"

/-- `models.LaneGroupResult`. -/
structure LaneGroupResult where
  engine_version : String
  volume : ℚ
  num_lanes : ℕ
  saturation_flow : SaturationFlowResult
  capacity : ℚ
  vc_ratio : ℚ
  uniform_delay : ℚ
  incremental_delay : ℝ
  control_delay : ℝ
  los : LevelOfService
  is_oversaturated : Bool

/-- `compute_lane_group_results`: the five pipeline steps in source order;
any `ValueError` raised by a step aborts the pipeline. -/
noncomputable def compute_lane_group_results (i : LaneGroupInput) :
    Except String LaneGroupResult := do
  let cap ← compute_capacity (compute_saturation_flow i).total_saturation_flow
    i.signal_timing.effective_green i.signal_timing.cycle_length
  let X ← compute_vc_ratio i.volume cap
  let d ← compute_control_delay i.signal_timing.effective_green
    i.signal_timing.cycle_length X cap i.analysis_period_hours
    i.signal_timing.control_type i.upstream_filtering_factor
  let los ← classify_los d.2.2
  return { engine_version := engineVersion
           volume := i.volume
           num_lanes := i.num_lanes
           saturation_flow := compute_saturation_flow i
           capacity := cap
           vc_ratio := X
           uniform_delay := d.1
           incremental_delay := d.2.1
           control_delay := d.2.2
           los := los
           is_oversaturated := decide (1 < X) }

/-! ## Pure views of the pipeline values

These name the value each pipeline step produces on its success path, as a
total function of the input; the lemmas below prove that on validated
inputs the `Except`-valued pipeline returns exactly these values. -/

/-- The capacity `compute_lane_group_results` computes at step 2. -/
def capOf (i : LaneGroupInput) : ℚ :=
  roundTo 1 ((compute_saturation_flow i).total_saturation_flow *
    (i.signal_timing.effective_green / i.signal_timing.cycle_length))

/-- The v/c ratio `compute_lane_group_results` computes at step 3. -/
def vcOf (i : LaneGroupInput) : ℚ :=
  roundTo 4 (i.volume / capOf i)

/-- The value `compute_uniform_delay` returns on its success path. -/
def uniformDelayVal (effective_green cycle_length vc_ratio : ℚ) : ℚ :=
  let g_over_C := effective_green / cycle_length
  let X_effective := min 1 vc_ratio
  let numerator := 0.5 * cycle_length * (1 - g_over_C) ^ 2
  let denominator := 1 - X_effective * g_over_C
  let denominator' := if denominator ≤ 0.001 then 0.001 else denominator
  roundTo 2 (numerator / denominator')

/-- The value `compute_incremental_delay` returns on its success path. -/
noncomputable def incrementalDelayVal (vc_ratio capacity
    analysis_period_hours : ℚ) (control_type : SignalControlType)
    (upstream_filtering_factor : ℚ) : ℝ :=
  let X := vc_ratio
  let k := get_incremental_delay_factor control_type
  let radicand : ℚ := (X - 1) ^ 2 + 8 * k * upstream_filtering_factor * X /
    (capacity * analysis_period_hours)
  roundTo 2 (max 0 (900 * (analysis_period_hours : ℝ) *
    (((X : ℝ) - 1) + Real.sqrt ((radicand : ℚ) : ℝ))))

/-- The uniform delay d1 of the full pipeline. -/
def d1Of (i : LaneGroupInput) : ℚ :=
  uniformDelayVal i.signal_timing.effective_green i.signal_timing.cycle_length
    (vcOf i)

/-- The incremental delay d2 of the full pipeline. -/
noncomputable def d2Of (i : LaneGroupInput) : ℝ :=
  incrementalDelayVal (vcOf i) (capOf i) i.analysis_period_hours
    i.signal_timing.control_type i.upstream_filtering_factor

/-- The total control delay of the full pipeline. -/
noncomputable def tdOf (i : LaneGroupInput) : ℝ :=
  roundTo 2 ((d1Of i : ℝ) + d2Of i)

/-- The grade `classify_los` returns on its success path. -/
noncomputable def losOf (d : ℝ) : LevelOfService :=
  if d ≤ 10 then .A
  else if d ≤ 20 then .B
  else if d ≤ 35 then .C
  else if d ≤ 55 then .D
  else if d ≤ 80 then .E
  else .F

/-- The `LaneGroupResult` the pipeline returns on its success path. -/
noncomputable def mkResult (i : LaneGroupInput) : LaneGroupResult :=
  { engine_version := engineVersion
    volume := i.volume
    num_lanes := i.num_lanes
    saturation_flow := compute_saturation_flow i
    capacity := capOf i
    vc_ratio := vcOf i
    uniform_delay := d1Of i
    incremental_delay := d2Of i
    control_delay := tdOf i
    los := losOf (tdOf i)
    is_oversaturated := decide (1 < vcOf i) }

/-! ## Spec-side formulas (for the refinement claims)

These definitions are written from the specification's wording, not from
the source, and are compared with the source embedding in the C1 theorem. -/

namespace Spec

/-- Modelled from the spec: `clamp(x, lo, hi)`. -/
def clamp (x lo hi : ℚ) : ℚ := min hi (max lo x)

/-- Modelled from the spec: `f_w = clamp(1 + (W-12)/30, 0.87, 1.07)`. -/
def f_w (W : ℚ) : ℚ := clamp (1 + (W - 12) / 30) 0.87 1.07

/-- Modelled from the spec: `f_hv = 100 / (100 + %HV*(ET-1))` with ET = 2.0. -/
def f_hv (hv : ℚ) : ℚ := 100 / (100 + hv * (2.0 - 1))

/-- Modelled from the spec: `f_g = 1 - grade%/200`. -/
def f_g (grade : ℚ) : ℚ := 1 - grade / 200

/-- Modelled from the spec: `f_p = clamp((N - 0.1 - 18*Nm/3600)/N, 0.05, 1.0)`
only when `parking_adjacent` and maneuvers > 0, else 1.0. -/
def f_p (adj : Bool) (Nm : ℚ) (N : ℕ) : ℚ :=
  if adj = true ∧ 0 < Nm then clamp ((N - 0.1 - 18 * Nm / 3600) / N) 0.05 1
  else 1

/-- Modelled from the spec: `f_bb = clamp((N - 14.4*Nb/3600)/N, 0.05, 1.0)`
only when stops > 0, else 1.0. -/
def f_bb (Nb : ℚ) (N : ℕ) : ℚ :=
  if 0 < Nb then clamp ((N - 14.4 * Nb / 3600) / N) 0.05 1 else 1

/-- Modelled from the spec: `f_a = 0.90` for area type "cbd"
(case-insensitive), else 1.00. -/
def f_a (area : String) : ℚ := if area.toLower = "cbd" then 0.90 else 1.00

/-- Modelled from the spec: `f_lt = 0.95` for exclusive left,
`1/(1 + 0.05*PLT)` for `through_left` or `all`, else 1.0, with
`PLT = left_turn_pct/100`. -/
def f_lt (mt : MovementType) (lt_pct : ℚ) : ℚ :=
  if mt = .left then 0.95
  else if mt = .through_left ∨ mt = .all then 1 / (1 + 0.05 * (lt_pct / 100))
  else 1

/-- Modelled from the spec: `f_rt = 0.85` for exclusive right,
`max(0.05, 1 - 0.15*PRT)` for `through_right`, `left_right` or `all`,
else 1.0, with `PRT = right_turn_pct/100`. -/
def f_rt (mt : MovementType) (rt_pct : ℚ) : ℚ :=
  if mt = .right then 0.85
  else if mt = .through_right ∨ mt = .left_right ∨ mt = .all then
    max 0.05 (1 - 0.15 * (rt_pct / 100))
  else 1

/-- Modelled from the spec:
`s_adjusted = s0 * f_w * f_hv * f_g * f_p * f_bb * f_a * f_lt * f_rt`. -/
def s_adjusted (i : LaneGroupInput) : ℚ :=
  i.base_saturation_flow * f_w i.lane_width * f_hv i.heavy_vehicle_pct *
    f_g i.grade_pct *
    f_p i.parking_adjacent i.parking_maneuvers_per_hour i.num_lanes *
    f_bb i.bus_stops_per_hour i.num_lanes * f_a i.area_type *
    f_lt i.movement_type i.left_turn_pct *
    f_rt i.movement_type i.right_turn_pct

end Spec

/-! ## Concrete example inputs (used by witnesses and counterexamples) -/

/-- A plain validated input: 800 vph over 2 through lanes, 90 s cycle with
40 s green, every adjustment factor at its neutral value. -/
def exBase : LaneGroupInput :=
  { volume := 800
    num_lanes := 2
    movement_type := .through
    base_saturation_flow := 1900
    lane_width := 12
    heavy_vehicle_pct := 0
    grade_pct := 0
    parking_adjacent := false
    parking_maneuvers_per_hour := 0
    bus_stops_per_hour := 0
    area_type := "other"
    left_turn_pct := 0
    right_turn_pct := 0
    signal_timing := ⟨90, 40, .pretimed⟩
    analysis_period_hours := 1/4
    upstream_filtering_factor := 1 }

/-- A validated input whose base saturation flow is so small that the
rounded total saturation flow, and hence the rounded capacity, is 0.0. -/
def exTiny : LaneGroupInput :=
  { exBase with base_saturation_flow := 1/100, num_lanes := 1, volume := 100 }

/-- A validated zero-volume input whose green equals the whole cycle. -/
def exZeroA : LaneGroupInput :=
  { exBase with
    volume := 0
    num_lanes := 1
    signal_timing := ⟨90, 90, .pretimed⟩ }

/-- A validated zero-volume input with an extreme red split
(1 s green in a 300 s cycle). -/
def exZeroB : LaneGroupInput :=
  { exBase with
    volume := 0
    num_lanes := 1
    signal_timing := ⟨300, 1, .pretimed⟩ }

/-- A validated input exercising every adjustment factor away from its
neutral value. -/
def exFactors : LaneGroupInput :=
  { volume := 700
    num_lanes := 2
    movement_type := .all
    base_saturation_flow := 1900
    lane_width := 10
    heavy_vehicle_pct := 5
    grade_pct := 2
    parking_adjacent := true
    parking_maneuvers_per_hour := 20
    bus_stops_per_hour := 10
    area_type := "cbd"
    left_turn_pct := 10
    right_turn_pct := 15
    signal_timing := ⟨90, 40, .actuated_coordinated⟩
    analysis_period_hours := 1/4
    upstream_filtering_factor := 9/10 }

/-! ## Rounding lemmas -/

section Rounding

variable {α : Type} [LinearOrderedField α] [FloorRing α]

theorem floor_le_rhe (x : α) : ⌊x⌋ ≤ rhe x := by
  unfold rhe
  repeat' split
  all_goals omega

theorem rhe_le_floor_succ (x : α) : rhe x ≤ ⌊x⌋ + 1 := by
  unfold rhe
  repeat' split
  all_goals omega

theorem rhe_eq_floor_of_lt {x : α} (h : x - ⌊x⌋ < 1/2) : rhe x = ⌊x⌋ := by
  unfold rhe
  rw [if_pos h]

theorem rhe_eq_succ_of_gt {x : α} (h : 1/2 < x - ⌊x⌋) : rhe x = ⌊x⌋ + 1 := by
  unfold rhe
  rw [if_neg (by linarith), if_pos h]

theorem rhe_eq_of_mid {x : α} (h : x - ⌊x⌋ = 1/2) :
    rhe x = if ⌊x⌋ % 2 = 0 then ⌊x⌋ else ⌊x⌋ + 1 := by
  unfold rhe
  rw [if_neg (by rw [h]; exact lt_irrefl _), if_neg (by rw [h]; exact lt_irrefl _)]

theorem rhe_mono {x y : α} (hxy : x ≤ y) : rhe x ≤ rhe y := by
  rcases lt_or_eq_of_le (Int.floor_mono hxy : ⌊x⌋ ≤ ⌊y⌋) with hf | hf
  · calc rhe x ≤ ⌊x⌋ + 1 := rhe_le_floor_succ x
      _ ≤ ⌊y⌋ := by omega
      _ ≤ rhe y := floor_le_rhe y
  · have hr : x - (⌊x⌋ : α) ≤ y - (⌊y⌋ : α) := by
      rw [hf]
      exact sub_le_sub_right hxy _
    rcases lt_trichotomy (x - (⌊x⌋ : α)) (1/2) with h1 | h1 | h1
    · rw [rhe_eq_floor_of_lt h1, hf]
      exact floor_le_rhe y
    · rcases lt_trichotomy (y - (⌊y⌋ : α)) (1/2) with h2 | h2 | h2
      · linarith
      · rw [rhe_eq_of_mid h1, rhe_eq_of_mid h2, hf]
      · rw [rhe_eq_succ_of_gt h2, ← hf]
        exact rhe_le_floor_succ x
    · have h2 : 1/2 < y - (⌊y⌋ : α) := lt_of_lt_of_le h1 hr
      rw [rhe_eq_succ_of_gt h1, rhe_eq_succ_of_gt h2, hf]

theorem rhe_intCast (m : ℤ) : rhe ((m : α)) = m := by
  have h : ((m : α)) - (⌊(m : α)⌋ : α) < 1/2 := by
    rw [Int.floor_intCast]
    norm_num
  rw [rhe_eq_floor_of_lt h, Int.floor_intCast]

theorem rhe_nonneg {x : α} (h : 0 ≤ x) : 0 ≤ rhe x :=
  le_trans (Int.floor_nonneg.mpr h) (floor_le_rhe x)

theorem roundTo_mono (n : ℕ) {x y : α} (h : x ≤ y) :
    roundTo n x ≤ roundTo n y := by
  unfold roundTo
  have h10 : (0:α) < 10 ^ n := by positivity
  exact div_le_div_of_nonneg_right
    (by exact_mod_cast rhe_mono (mul_le_mul_of_nonneg_right h h10.le)) h10.le

theorem roundTo_nonneg (n : ℕ) {x : α} (h : 0 ≤ x) : 0 ≤ roundTo n x := by
  unfold roundTo
  have h10 : (0:α) < 10 ^ n := by positivity
  exact div_nonneg (by exact_mod_cast rhe_nonneg (mul_nonneg h h10.le)) h10.le

theorem roundTo_of_mul_eq_intCast (n : ℕ) {x : α} {m : ℤ}
    (h : x * 10 ^ n = (m : α)) : roundTo n x = x := by
  have h10 : (10:α) ^ n ≠ 0 := by positivity
  unfold roundTo
  rw [h, rhe_intCast, ← h, mul_div_cancel_right₀ _ h10]

theorem roundTo_zero (n : ℕ) : roundTo n (0 : α) = 0 :=
  roundTo_of_mul_eq_intCast n (m := 0) (by norm_num)

theorem roundTo_idem (n : ℕ) (x : α) : roundTo n (roundTo n x) = roundTo n x := by
  apply roundTo_of_mul_eq_intCast n (m := rhe (x * 10 ^ n))
  unfold roundTo
  have h10 : (10:α) ^ n ≠ 0 := by positivity
  rw [div_mul_cancel₀ _ h10]

theorem rhe_eq_of_mem {x : α} {m : ℤ} (h1 : (m : α) - 1/2 < x)
    (h2 : x < (m : α) + 1/2) : rhe x = m := by
  rcases le_or_lt (m : α) x with h | h
  · have hf : ⌊x⌋ = m := Int.floor_eq_iff.mpr ⟨h, by linarith⟩
    rw [rhe_eq_floor_of_lt (by rw [hf]; linarith), hf]
  · have hf : ⌊x⌋ = m - 1 := by
      apply Int.floor_eq_iff.mpr
      constructor
      · push_cast
        linarith
      · push_cast
        linarith
    rw [rhe_eq_succ_of_gt (by rw [hf]; push_cast; linarith), hf]
    omega

theorem roundTo_eq_div {n : ℕ} {x : α} {m : ℤ} (h1 : (m : α) - 1/2 < x * 10 ^ n)
    (h2 : x * 10 ^ n < (m : α) + 1/2) : roundTo n x = (m : α) / 10 ^ n := by
  unfold roundTo
  rw [rhe_eq_of_mem h1 h2]

theorem rhe_ratCast (q : ℚ) : rhe ((q : α)) = rhe q := by
  have hf : ⌊(q : α)⌋ = ⌊q⌋ := Rat.floor_cast q
  have hhalf : (1:α)/2 = (((1:ℚ)/2 : ℚ) : α) := by norm_num
  have hsub : (q : α) - ((⌊q⌋ : ℤ) : α) = ((q - (⌊q⌋ : ℤ) : ℚ) : α) := by
    push_cast
    ring
  unfold rhe
  rw [hf]
  by_cases hc1 : q - (⌊q⌋ : ℚ) < 1/2
  · have hc1' : (q : α) - ((⌊q⌋ : ℤ) : α) < 1/2 := by
      rw [hhalf, hsub]
      exact_mod_cast hc1
    rw [if_pos hc1', if_pos hc1]
  · have hc1' : ¬((q : α) - ((⌊q⌋ : ℤ) : α) < 1/2) := by
      rw [hhalf, hsub]
      intro h
      exact hc1 (by exact_mod_cast h)
    rw [if_neg hc1', if_neg hc1]
    by_cases hc2 : (1:ℚ)/2 < q - (⌊q⌋ : ℚ)
    · have hc2' : (1:α)/2 < (q : α) - ((⌊q⌋ : ℤ) : α) := by
        rw [hhalf, hsub]
        exact_mod_cast hc2
      rw [if_pos hc2', if_pos hc2]
    · have hc2' : ¬((1:α)/2 < (q : α) - ((⌊q⌋ : ℤ) : α)) := by
        rw [hhalf, hsub]
        intro h
        exact hc2 (by exact_mod_cast h)
      rw [if_neg hc2', if_neg hc2]

theorem roundTo_ratCast (n : ℕ) (q : ℚ) :
    roundTo n ((q : α)) = ((roundTo n q : ℚ) : α) := by
  unfold roundTo
  have h : (q : α) * 10 ^ n = ((q * 10 ^ n : ℚ) : α) := by push_cast; ring
  rw [h, rhe_ratCast]
  push_cast
  ring

end Rounding

/-! ## String helpers -/

theorem toLower_other : "other".toLower = "other" := by
  show String.map Char.toLower "other" = "other"
  rw [String.map_eq]
  decide

theorem toLower_cbd : "cbd".toLower = "cbd" := by
  show String.map Char.toLower "cbd" = "cbd"
  rw [String.map_eq]
  decide

theorem area_type_factor_other : compute_area_type_factor "other" = 1 := by
  unfold compute_area_type_factor
  rw [toLower_other, if_neg (by decide)]

theorem area_type_factor_cbd : compute_area_type_factor "cbd" = 0.9 := by
  unfold compute_area_type_factor
  rw [toLower_cbd, if_pos rfl]

/-! ## Validity of the example inputs -/

theorem valid_exBase : Valid exBase := by
  norm_num [Valid, ValidTiming, exBase]

theorem valid_exTiny : Valid exTiny := by
  norm_num [Valid, ValidTiming, exTiny, exBase]

theorem valid_exZeroA : Valid exZeroA := by
  norm_num [Valid, ValidTiming, exZeroA, exBase]

theorem valid_exZeroB : Valid exZeroB := by
  norm_num [Valid, ValidTiming, exZeroB, exBase]

theorem valid_exFactors : Valid exFactors := by
  norm_num [Valid, ValidTiming, exFactors]

/-! ## Success-path lemmas for the pipeline steps -/

theorem compute_capacity_ok {s g C : ℚ} (hC : 0 < C) (hg : 0 ≤ g)
    (hgC : g ≤ C) (hs : 0 ≤ s) :
    compute_capacity s g C = .ok (roundTo 1 (s * (g / C))) := by
  unfold compute_capacity
  rw [if_neg (not_le.mpr hC), if_neg (not_lt.mpr hg), if_neg (not_lt.mpr hgC),
    if_neg (not_lt.mpr hs)]

theorem compute_vc_ratio_ok {v c : ℚ} (hc : 0 < c) (hv : 0 ≤ v) :
    compute_vc_ratio v c = .ok (roundTo 4 (v / c)) := by
  unfold compute_vc_ratio
  rw [if_neg (not_le.mpr hc), if_neg (not_lt.mpr hv)]

theorem compute_uniform_delay_ok {g C X : ℚ} (hC : 0 < C) :
    compute_uniform_delay g C X = .ok (uniformDelayVal g C X) := by
  unfold compute_uniform_delay uniformDelayVal
  rw [if_neg (not_le.mpr hC)]

theorem get_incremental_delay_factor_pos (ct : SignalControlType) :
    0 < get_incremental_delay_factor ct := by
  unfold get_incremental_delay_factor
  split <;> norm_num

theorem radicand_nonneg {X I c T : ℚ} (ct : SignalControlType) (hX : 0 ≤ X)
    (hI : 0 ≤ I) (hc : 0 < c) (hT : 0 < T) :
    0 ≤ (X - 1) ^ 2 + 8 * get_incremental_delay_factor ct * I * X / (c * T) := by
  have hk := (get_incremental_delay_factor_pos ct).le
  have h2 : 0 ≤ 8 * get_incremental_delay_factor ct * I * X / (c * T) :=
    div_nonneg (mul_nonneg (mul_nonneg (mul_nonneg (by norm_num) hk) hI) hX)
      (mul_nonneg hc.le hT.le)
  have h1 : 0 ≤ (X - 1) ^ 2 := sq_nonneg _
  linarith

theorem compute_incremental_delay_ok {X c T I : ℚ}
    (ct : SignalControlType) (hc : 0 < c) (hT : 0 < T)
    (hrad : 0 ≤ (X - 1) ^ 2 +
      8 * get_incremental_delay_factor ct * I * X / (c * T)) :
    compute_incremental_delay X c T ct I = .ok (incrementalDelayVal X c T ct I) := by
  unfold compute_incremental_delay incrementalDelayVal
  rw [if_neg (not_le.mpr hc), if_neg (not_le.mpr hT), if_neg (not_lt.mpr hrad)]

theorem classify_los_ok {d : ℝ} (hd : 0 ≤ d) :
    classify_los d = .ok (losOf d) := by
  unfold classify_los losOf
  rw [if_neg (not_lt.mpr hd)]
  simp only [apply_ite (Except.ok (ε := String) (α := LevelOfService))]

theorem compute_control_delay_ok {g C X c T I : ℚ} (ct : SignalControlType)
    (hC : 0 < C) (hc : 0 < c) (hT : 0 < T)
    (hrad : 0 ≤ (X - 1) ^ 2 +
      8 * get_incremental_delay_factor ct * I * X / (c * T)) :
    compute_control_delay g C X c T ct I =
      .ok (uniformDelayVal g C X, incrementalDelayVal X c T ct I,
        roundTo 2 ((uniformDelayVal g C X : ℝ) + incrementalDelayVal X c T ct I)) := by
  unfold compute_control_delay
  rw [compute_uniform_delay_ok hC, compute_incremental_delay_ok ct hc hT hrad]
  rfl

/-! ## Factor bounds -/

theorem lane_width_factor_bounds (w : ℚ) :
    0.87 ≤ compute_lane_width_factor w ∧ compute_lane_width_factor w ≤ 1.07 := by
  unfold compute_lane_width_factor
  exact ⟨le_max_left _ _, max_le (by norm_num) (min_le_right _ _)⟩

theorem heavy_vehicle_factor_bounds {p : ℚ} (h0 : 0 ≤ p) (h1 : p ≤ 100) :
    1/2 ≤ compute_heavy_vehicle_factor p ∧ compute_heavy_vehicle_factor p ≤ 1 := by
  unfold compute_heavy_vehicle_factor
  have hpos : (0:ℚ) < 100 + p * (2 - 1) := by linarith
  constructor
  · rw [le_div_iff₀ hpos]
    linarith
  · rw [div_le_one hpos]
    linarith

theorem grade_factor_bounds {g : ℚ} (h0 : -10 ≤ g) (h1 : g ≤ 10) :
    0.95 ≤ compute_grade_factor g ∧ compute_grade_factor g ≤ 1.05 := by
  unfold compute_grade_factor
  constructor <;> [nlinarith; nlinarith]

theorem parking_factor_bounds (adj : Bool) (nm : ℚ) (N : ℕ) :
    0.05 ≤ compute_parking_factor adj nm N ∧ compute_parking_factor adj nm N ≤ 1 := by
  unfold compute_parking_factor
  split
  · norm_num
  · exact ⟨le_max_left _ _, max_le (by norm_num) (min_le_right _ _)⟩

theorem bus_blockage_factor_bounds (nb : ℚ) (N : ℕ) :
    0.05 ≤ compute_bus_blockage_factor nb N ∧ compute_bus_blockage_factor nb N ≤ 1 := by
  unfold compute_bus_blockage_factor
  split
  · norm_num
  · exact ⟨le_max_left _ _, max_le (by norm_num) (min_le_right _ _)⟩

theorem area_type_factor_bounds (a : String) :
    0.9 ≤ compute_area_type_factor a ∧ compute_area_type_factor a ≤ 1 := by
  unfold compute_area_type_factor
  split <;> norm_num

theorem left_turn_factor_bounds (mt : MovementType) {lt_pct : ℚ}
    (h0 : 0 ≤ lt_pct) (h1 : lt_pct ≤ 100) :
    0.9 ≤ compute_left_turn_factor mt lt_pct ∧
      compute_left_turn_factor mt lt_pct ≤ 1 := by
  unfold compute_left_turn_factor
  split
  · norm_num
  · split
    · have hpos : (0:ℚ) < 1 + 0.05 * (lt_pct / 100) := by linarith
      constructor
      · rw [le_div_iff₀ hpos]
        linarith
      · rw [div_le_one hpos]
        linarith
    · norm_num

theorem right_turn_factor_bounds (mt : MovementType) {rt_pct : ℚ}
    (h0 : 0 ≤ rt_pct) :
    0.05 ≤ compute_right_turn_factor mt rt_pct ∧
      compute_right_turn_factor mt rt_pct ≤ 1 := by
  unfold compute_right_turn_factor
  split
  · norm_num
  · split
    · exact ⟨le_max_left _ _, max_le (by norm_num) (by linarith)⟩
    · norm_num

theorem s_adjusted_raw_pos {i : LaneGroupInput} (h : Valid i) :
    0 < s_adjusted_raw i := by
  obtain ⟨_, _, _, hs0, hw1, hw2, hhv1, hhv2, hg1, hg2, hnm, hnb, _, hlt1,
    hlt2, hrt1, _, _, _, _, _, _⟩ := h
  unfold s_adjusted_raw
  have h1 := lane_width_factor_bounds i.lane_width
  have h2 := heavy_vehicle_factor_bounds hhv1 hhv2
  have h3 := grade_factor_bounds hg1 hg2
  have h4 := parking_factor_bounds i.parking_adjacent
    i.parking_maneuvers_per_hour i.num_lanes
  have h5 := bus_blockage_factor_bounds i.bus_stops_per_hour i.num_lanes
  have h6 := area_type_factor_bounds i.area_type
  have h7 := left_turn_factor_bounds i.movement_type hlt1 hlt2
  have h8 := right_turn_factor_bounds i.movement_type hrt1
  have p1 : (0:ℚ) < compute_lane_width_factor i.lane_width := by linarith [h1.1]
  have p2 : (0:ℚ) < compute_heavy_vehicle_factor i.heavy_vehicle_pct := by
    linarith [h2.1]
  have p3 : (0:ℚ) < compute_grade_factor i.grade_pct := by linarith [h3.1]
  have p4 : (0:ℚ) < compute_parking_factor i.parking_adjacent
      i.parking_maneuvers_per_hour i.num_lanes := by linarith [h4.1]
  have p5 : (0:ℚ) < compute_bus_blockage_factor i.bus_stops_per_hour
      i.num_lanes := by linarith [h5.1]
  have p6 : (0:ℚ) < compute_area_type_factor i.area_type := by linarith [h6.1]
  have p7 : (0:ℚ) < compute_left_turn_factor i.movement_type i.left_turn_pct := by
    linarith [h7.1]
  have p8 : (0:ℚ) < compute_right_turn_factor i.movement_type i.right_turn_pct := by
    linarith [h8.1]
  positivity

theorem total_saturation_flow_nonneg {i : LaneGroupInput} (h : Valid i) :
    0 ≤ (compute_saturation_flow i).total_saturation_flow := by
  have hN : (0:ℚ) ≤ (i.num_lanes : ℚ) := by positivity
  exact roundTo_nonneg 1 (mul_nonneg (s_adjusted_raw_pos h).le hN)

/-! ## Nonnegativity of the delay values -/

theorem uniformDelayVal_nonneg (g : ℚ) {C : ℚ} (hC : 0 < C) (X : ℚ) :
    0 ≤ uniformDelayVal g C X := by
  unfold uniformDelayVal
  apply roundTo_nonneg
  apply div_nonneg
  · positivity
  · split
    · norm_num
    · linarith [not_le.mp (by assumption : ¬(1 - min 1 X * (g / C) ≤ 0.001))]

theorem incrementalDelayVal_nonneg (X c T : ℚ) (ct : SignalControlType)
    (I : ℚ) : 0 ≤ incrementalDelayVal X c T ct I := by
  unfold incrementalDelayVal
  exact roundTo_nonneg 2 (le_max_left _ _)

theorem tdOf_nonneg {i : LaneGroupInput} (hC : 0 < i.signal_timing.cycle_length) :
    0 ≤ tdOf i := by
  unfold tdOf
  apply roundTo_nonneg
  have h1 : 0 ≤ d1Of i := uniformDelayVal_nonneg _ hC _
  have h2 : 0 ≤ d2Of i := incrementalDelayVal_nonneg _ _ _ _ _
  have h1' : (0:ℝ) ≤ (d1Of i : ℝ) := by exact_mod_cast h1
  linarith

/-! ## The pipeline on validated inputs with positive rounded capacity -/

theorem pipeline_ok {i : LaneGroupInput} (h : Valid i) (hcap : 0 < capOf i) :
    compute_lane_group_results i = .ok (mkResult i) := by
  obtain ⟨hvol, -, -, -, -, -, -, -, -, -, -, -, -, -, -, -, -,
    ⟨hC, -, hg, hgC⟩, hT, -, hI, -⟩ := id h
  have hvc0 : 0 ≤ vcOf i := roundTo_nonneg 4 (div_nonneg hvol hcap.le)
  have hrad := radicand_nonneg i.signal_timing.control_type hvc0 hI hcap hT
  unfold compute_lane_group_results
  rw [compute_capacity_ok hC hg.le hgC (total_saturation_flow_nonneg h)]
  show (compute_vc_ratio i.volume (capOf i)).bind _ = _
  rw [compute_vc_ratio_ok hcap hvol]
  show (compute_control_delay _ _ (vcOf i) (capOf i) _ _ _).bind _ = _
  rw [compute_control_delay_ok _ hC hcap hT hrad]
  show (classify_los (tdOf i)).bind _ = _
  rw [classify_los_ok (tdOf_nonneg hC)]
  rfl

/-! ## Claim C2 -/

/-- C2: For all `saturation_flow ≥ 0`, `0 ≤ effective_green ≤ cycle_length`
and `cycle_length > 0`, `compute_capacity` returns
`saturation_flow * (effective_green / cycle_length)` rounded to 1 decimal;
and for all `volume ≥ 0` and `capacity > 0`, `compute_vc_ratio` returns
`volume / capacity` rounded to 4 decimals, with no upper bound: values
above 1.0 are returned, not treated as errors (e.g. ratio 3/2 → 1.5). -/
theorem C2_capacity_and_vc_formulas (s g C v c : ℚ) (hs : 0 ≤ s) (hg : 0 ≤ g)
    (hgC : g ≤ C) (hC : 0 < C) (hv : 0 ≤ v) (hc : 0 < c) :
    compute_capacity s g C = .ok (roundTo 1 (s * (g / C))) ∧
    compute_vc_ratio v c = .ok (roundTo 4 (v / c)) ∧
    compute_vc_ratio 3 2 = .ok 1.5 := by
  refine ⟨compute_capacity_ok hC hg hgC hs, compute_vc_ratio_ok hc hv, ?_⟩
  rw [compute_vc_ratio_ok (by norm_num) (by norm_num)]
  congr 1
  rw [show (1.5 : ℚ) = ((15000 : ℤ) : ℚ) / 10 ^ 4 by norm_num]
  exact roundTo_eq_div (by norm_num) (by norm_num)

/-- Witness for C2 at s = 1900, g = 40, C = 90, v = 2000, c = 800:
capacity 844.4 and an oversaturated ratio 2.5 are produced. -/
theorem C2_capacity_and_vc_formulas_witness :
    compute_capacity 1900 40 90 = .ok 844.4 ∧
    compute_vc_ratio 2000 800 = .ok 2.5 := by
  have h := C2_capacity_and_vc_formulas 1900 40 90 2000 800 (by norm_num)
    (by norm_num) (by norm_num) (by norm_num) (by norm_num) (by norm_num)
  refine ⟨h.1.trans ?_, h.2.1.trans ?_⟩
  · congr 1
    rw [show (844.4 : ℚ) = ((8444 : ℤ) : ℚ) / 10 ^ 1 by norm_num]
    exact roundTo_eq_div (by norm_num) (by norm_num)
  · congr 1
    rw [show (2.5 : ℚ) = ((25000 : ℤ) : ℚ) / 10 ^ 4 by norm_num]
    exact roundTo_eq_div (by norm_num) (by norm_num)

/-! ## Claim C3 -/

/-- C3: For every `cycle_length C > 0`, `effective_green g` and
`vc_ratio X`, `compute_uniform_delay` returns
`round(0.5*C*(1 - g/C)^2 / D, 2)` where `D = 1 - min(1, X)*(g/C)`, except
that whenever `D ≤ 0.001` the denominator is replaced by exactly 0.001. -/
theorem C3_uniform_delay_formula (g C X : ℚ) (hC : 0 < C) :
    compute_uniform_delay g C X =
      .ok (roundTo 2 (0.5 * C * (1 - g / C) ^ 2 /
        (if 1 - min 1 X * (g / C) ≤ 0.001 then 0.001
         else 1 - min 1 X * (g / C)))) :=
  compute_uniform_delay_ok hC

/-- Witness for C3 at g = 40, C = 90, X = 1/2: the delay is 17.86 s. -/
theorem C3_uniform_delay_formula_witness :
    compute_uniform_delay 40 90 (1/2) = .ok 17.86 := by
  rw [C3_uniform_delay_formula 40 90 (1/2) (by norm_num)]
  congr 1
  rw [show min (1:ℚ) (1/2) = 1/2 by norm_num, if_neg (by norm_num),
    show (17.86 : ℚ) = ((1786 : ℤ) : ℚ) / 10 ^ 2 by norm_num]
  exact roundTo_eq_div (by norm_num) (by norm_num)

/-! ## Claim C5 -/

/-- C5: `classify_los` maps delay `d ≥ 0` to A for `d ≤ 10`, B for
`10 < d ≤ 20`, C for `20 < d ≤ 35`, D for `35 < d ≤ 55`, E for
`55 < d ≤ 80` and F for `d > 80` (ties resolve to the better grade), and
fails with a domain error exactly when `d < 0`. -/
theorem C5_classify_los (d : ℝ) :
    (0 ≤ d → d ≤ 10 → classify_los d = .ok .A) ∧
    (10 < d → d ≤ 20 → classify_los d = .ok .B) ∧
    (20 < d → d ≤ 35 → classify_los d = .ok .C) ∧
    (35 < d → d ≤ 55 → classify_los d = .ok .D) ∧
    (55 < d → d ≤ 80 → classify_los d = .ok .E) ∧
    (80 < d → classify_los d = .ok .F) ∧
    ((∃ e, classify_los d = .error e) ↔ d < 0) := by
  unfold classify_los
  refine ⟨?_, ?_, ?_, ?_, ?_, ?_, ?_⟩
  · intro h0 h10
    rw [if_neg (not_lt.mpr h0), if_pos h10]
  · intro h1 h2
    rw [if_neg (not_lt.mpr (by linarith)), if_neg (not_le.mpr h1), if_pos h2]
  · intro h1 h2
    rw [if_neg (not_lt.mpr (by linarith)), if_neg (not_le.mpr (by linarith)),
      if_neg (not_le.mpr h1), if_pos h2]
  · intro h1 h2
    rw [if_neg (not_lt.mpr (by linarith)), if_neg (not_le.mpr (by linarith)),
      if_neg (not_le.mpr (by linarith)), if_neg (not_le.mpr h1), if_pos h2]
  · intro h1 h2
    rw [if_neg (not_lt.mpr (by linarith)), if_neg (not_le.mpr (by linarith)),
      if_neg (not_le.mpr (by linarith)), if_neg (not_le.mpr (by linarith)),
      if_neg (not_le.mpr h1), if_pos h2]
  · intro h1
    rw [if_neg (not_lt.mpr (by linarith)), if_neg (not_le.mpr (by linarith)),
      if_neg (not_le.mpr (by linarith)), if_neg (not_le.mpr (by linarith)),
      if_neg (not_le.mpr (by linarith)), if_neg (not_le.mpr h1)]
  · constructor
    · rintro ⟨e, he⟩
      by_contra hd
      push_neg at hd
      rw [if_neg (not_lt.mpr hd)] at he
      split_ifs at he
    · intro hd
      exact ⟨_, if_pos hd⟩

/-- Witness for C5: the four boundary evaluations the spec calls out. -/
theorem C5_classify_los_witness :
    classify_los 10 = .ok .A ∧ classify_los 10.01 = .ok .B ∧
    classify_los 80 = .ok .E ∧ classify_los 80.01 = .ok .F :=
  ⟨(C5_classify_los 10).1 (by norm_num) (by norm_num),
   (C5_classify_los 10.01).2.1 (by norm_num) (by norm_num),
   (C5_classify_los 80).2.2.2.2.1 (by norm_num) (by norm_num),
   (C5_classify_los 80.01).2.2.2.2.2.1 (by norm_num)⟩

/-! ## Claim C7 -/

/-- C7 counterexample: with `X = -1`, `I = 1`, `c = 1/2 > 0` and
`T = 1/4 > 0` neither claimed error condition holds, yet
`compute_incremental_delay` raises: the `math.sqrt` argument is
`(-2)^2 + 8*0.5*1*(-1)/(1/8) = 4 - 32 < 0`, a math domain error.  This
refutes the claimed "raises if and only if capacity ≤ 0 or
analysis_period_hours ≤ 0". -/
theorem C7_counterexample :
    ¬((1:ℚ)/2 ≤ 0 ∨ (1:ℚ)/4 ≤ 0) ∧
    compute_incremental_delay (-1) (1/2) (1/4) SignalControlType.pretimed 1 =
      .error "math domain error" := by
  refine ⟨by norm_num, ?_⟩
  have hk : get_incremental_delay_factor SignalControlType.pretimed = 0.50 := by
    unfold get_incremental_delay_factor
    rw [if_neg (by decide)]
  unfold compute_incremental_delay
  rw [if_neg (by norm_num), if_neg (by norm_num), hk, if_pos (by norm_num)]

/-- C7 (amended): `compute_capacity` errors iff `cycle_length ≤ 0`,
`effective_green < 0`, `effective_green > cycle_length` or
`saturation_flow < 0`; `compute_vc_ratio` errors iff `capacity ≤ 0` or
`volume < 0`; `compute_incremental_delay` errors iff `capacity ≤ 0`,
`analysis_period_hours ≤ 0`, or the square-root argument
`(X-1)^2 + 8kIX/(cT)` is negative (the `math.sqrt` domain error) -- for
`X ≥ 0` and `I ≥ 0`, the engine's actual domain, this reduces to exactly
the originally claimed condition; `compute_uniform_delay` errors iff
`cycle_length ≤ 0`.  In the `Except` embedding an error value carries no
result, so each function raises before producing any output. -/
theorem C7_defensive_check_conditions_amended (s g C v c X T I g' C' X' : ℚ)
    (ct : SignalControlType) :
    ((∃ e, compute_capacity s g C = .error e) ↔
      (C ≤ 0 ∨ g < 0 ∨ g > C ∨ s < 0)) ∧
    ((∃ e, compute_vc_ratio v c = .error e) ↔ (c ≤ 0 ∨ v < 0)) ∧
    ((∃ e, compute_incremental_delay X c T ct I = .error e) ↔
      (c ≤ 0 ∨ T ≤ 0 ∨
        (X - 1) ^ 2 + 8 * get_incremental_delay_factor ct * I * X / (c * T)
          < 0)) ∧
    (0 ≤ X → 0 ≤ I →
      ((∃ e, compute_incremental_delay X c T ct I = .error e) ↔
        (c ≤ 0 ∨ T ≤ 0))) ∧
    ((∃ e, compute_uniform_delay g' C' X' = .error e) ↔ C' ≤ 0) := by
  have hinc : (∃ e, compute_incremental_delay X c T ct I = .error e) ↔
      (c ≤ 0 ∨ T ≤ 0 ∨
        (X - 1) ^ 2 + 8 * get_incremental_delay_factor ct * I * X / (c * T)
          < 0) := by
    simp only [compute_incremental_delay]
    split_ifs with h1 h2 h3 <;> simp
    · exact Or.inl h1
    · exact Or.inr (Or.inl h2)
    · exact Or.inr (Or.inr h3)
    · exact ⟨not_le.mp h1, not_le.mp h2, not_lt.mp h3⟩
  refine ⟨?_, ?_, hinc, ?_, ?_⟩
  · unfold compute_capacity
    split_ifs with h1 h2 h3 h4 <;> simp
    · exact Or.inl h1
    · exact Or.inr (Or.inl h2)
    · exact Or.inr (Or.inr (Or.inl h3))
    · exact Or.inr (Or.inr (Or.inr h4))
    · exact ⟨not_le.mp h1, not_lt.mp h2, not_lt.mp h3, not_lt.mp h4⟩
  · unfold compute_vc_ratio
    split_ifs with h1 h2 <;> simp
    · exact Or.inl h1
    · exact Or.inr h2
    · exact ⟨not_le.mp h1, not_lt.mp h2⟩
  · intro hX hI
    rw [hinc]
    constructor
    · rintro (h | h | h)
      · exact Or.inl h
      · exact Or.inr h
      · by_cases hcpos : c ≤ 0
        · exact Or.inl hcpos
        · by_cases hTpos : T ≤ 0
          · exact Or.inr hTpos
          · exact absurd h (not_lt.mpr (radicand_nonneg ct hX hI
              (not_le.mp hcpos) (not_le.mp hTpos)))
    · rintro (h | h)
      · exact Or.inl h
      · exact Or.inr (Or.inl h)
  · unfold compute_uniform_delay
    split_ifs with h1 <;> simp
    · exact h1
    · exact not_le.mp h1

/-- Witness for C7 (amended): on the engine's domain (X = 2 ≥ 0, I = 1 ≥ 0)
a zero capacity makes `compute_incremental_delay` raise. -/
theorem C7_defensive_check_conditions_amended_witness :
    (0:ℚ) ≤ 2 ∧ (0:ℚ) ≤ 1 ∧
    (∃ e, compute_incremental_delay 2 0 (1/4) SignalControlType.pretimed 1 =
      .error e) :=
  ⟨by norm_num, by norm_num,
   ((C7_defensive_check_conditions_amended 1 1 1 1 0 2 (1/4) 1 1 1 1
       SignalControlType.pretimed).2.2.2.1 (by norm_num) (by norm_num)).mpr
     (Or.inl le_rfl)⟩

/-! ## Claim C1 -/

theorem clamp_comm (x lo hi : ℚ) (h : lo ≤ hi) :
    max lo (min x hi) = Spec.clamp x lo hi := by
  unfold Spec.clamp
  rw [max_min_distrib_left, max_eq_right h]
  exact min_comm _ _

theorem fw_eq_spec (w : ℚ) : compute_lane_width_factor w = Spec.f_w w := by
  unfold compute_lane_width_factor Spec.f_w
  exact clamp_comm _ _ _ (by norm_num)

theorem fhv_eq_spec (p : ℚ) :
    compute_heavy_vehicle_factor p = Spec.f_hv p := by
  unfold compute_heavy_vehicle_factor Spec.f_hv
  norm_num

theorem fg_eq_spec (g : ℚ) : compute_grade_factor g = Spec.f_g g := rfl

theorem fp_eq_spec (adj : Bool) (nm : ℚ) (N : ℕ) (h : 0 ≤ nm) :
    compute_parking_factor adj nm N = Spec.f_p adj nm N := by
  unfold compute_parking_factor Spec.f_p
  cases adj
  · rw [if_pos (Or.inl rfl), if_neg (by simp)]
  · by_cases hnm : nm = 0
    · rw [if_pos (Or.inr hnm), if_neg (by simp [hnm])]
    · have hpos : 0 < nm := lt_of_le_of_ne h (Ne.symm hnm)
      rw [if_neg (by simp [hnm]), if_pos ⟨rfl, hpos⟩]
      exact clamp_comm _ _ _ (by norm_num)

theorem fbb_eq_spec (nb : ℚ) (N : ℕ) (h : 0 ≤ nb) :
    compute_bus_blockage_factor nb N = Spec.f_bb nb N := by
  unfold compute_bus_blockage_factor Spec.f_bb
  by_cases hnb : nb = 0
  · rw [if_pos hnb, if_neg (by simp [hnb])]
  · have hpos : 0 < nb := lt_of_le_of_ne h (Ne.symm hnb)
    rw [if_neg hnb, if_pos hpos]
    exact clamp_comm _ _ _ (by norm_num)

theorem fa_eq_spec (a : String) :
    compute_area_type_factor a = Spec.f_a a := by
  unfold compute_area_type_factor Spec.f_a
  split_ifs <;> norm_num

theorem flt_eq_spec (mt : MovementType) (p : ℚ) :
    compute_left_turn_factor mt p = Spec.f_lt mt p := rfl

theorem frt_eq_spec (mt : MovementType) (p : ℚ) :
    compute_right_turn_factor mt p = Spec.f_rt mt p := rfl

theorem s_adjusted_eq_spec {i : LaneGroupInput} (h : Valid i) :
    s_adjusted_raw i = Spec.s_adjusted i := by
  obtain ⟨-, -, -, -, -, -, -, -, -, -, hnm, hnb, -, -, -, -, -, -, -, -, -, -⟩ :=
    id h
  unfold s_adjusted_raw Spec.s_adjusted
  rw [fw_eq_spec, fhv_eq_spec, fg_eq_spec, fp_eq_spec _ _ _ hnm,
    fbb_eq_spec _ _ hnb, fa_eq_spec, flt_eq_spec, frt_eq_spec]

/-- C1: On every validated input, `compute_saturation_flow` returns exactly
the spec's record: each of the eight factors equals its spec formula
rounded to 4 decimals, the adjusted flow is
`s0*f_w*f_hv*f_g*f_p*f_bb*f_a*f_lt*f_rt` rounded to 1 decimal, and the
total flow is that (unrounded) product times `num_lanes`, rounded to
1 decimal. -/
theorem C1_saturation_flow_formulas (i : LaneGroupInput) (h : Valid i) :
    compute_saturation_flow i =
      { base_saturation_flow := i.base_saturation_flow
        adjusted_saturation_flow := roundTo 1 (Spec.s_adjusted i)
        total_saturation_flow := roundTo 1 (Spec.s_adjusted i * i.num_lanes)
        f_w := roundTo 4 (Spec.f_w i.lane_width)
        f_hv := roundTo 4 (Spec.f_hv i.heavy_vehicle_pct)
        f_g := roundTo 4 (Spec.f_g i.grade_pct)
        f_p := roundTo 4 (Spec.f_p i.parking_adjacent
          i.parking_maneuvers_per_hour i.num_lanes)
        f_bb := roundTo 4 (Spec.f_bb i.bus_stops_per_hour i.num_lanes)
        f_a := roundTo 4 (Spec.f_a i.area_type)
        f_lt := roundTo 4 (Spec.f_lt i.movement_type i.left_turn_pct)
        f_rt := roundTo 4 (Spec.f_rt i.movement_type i.right_turn_pct) } := by
  obtain ⟨-, -, -, -, -, -, -, -, -, -, hnm, hnb, -, -, -, -, -, -, -, -, -, -⟩ :=
    id h
  unfold compute_saturation_flow
  rw [s_adjusted_eq_spec h, fw_eq_spec, fhv_eq_spec, fg_eq_spec,
    fp_eq_spec _ _ _ hnm, fbb_eq_spec _ _ hnb, fa_eq_spec, flt_eq_spec,
    frt_eq_spec]

/-- Witness for C1 at a validated input exercising all eight factors. -/
theorem C1_saturation_flow_formulas_witness :
    Valid exFactors ∧
    compute_saturation_flow exFactors =
      { base_saturation_flow := exFactors.base_saturation_flow
        adjusted_saturation_flow := roundTo 1 (Spec.s_adjusted exFactors)
        total_saturation_flow :=
          roundTo 1 (Spec.s_adjusted exFactors * exFactors.num_lanes)
        f_w := roundTo 4 (Spec.f_w exFactors.lane_width)
        f_hv := roundTo 4 (Spec.f_hv exFactors.heavy_vehicle_pct)
        f_g := roundTo 4 (Spec.f_g exFactors.grade_pct)
        f_p := roundTo 4 (Spec.f_p exFactors.parking_adjacent
          exFactors.parking_maneuvers_per_hour exFactors.num_lanes)
        f_bb := roundTo 4 (Spec.f_bb exFactors.bus_stops_per_hour
          exFactors.num_lanes)
        f_a := roundTo 4 (Spec.f_a exFactors.area_type)
        f_lt := roundTo 4 (Spec.f_lt exFactors.movement_type
          exFactors.left_turn_pct)
        f_rt := roundTo 4 (Spec.f_rt exFactors.movement_type
          exFactors.right_turn_pct) } :=
  ⟨by norm_num [Valid, ValidTiming, exFactors],
   C1_saturation_flow_formulas exFactors
     (by norm_num [Valid, ValidTiming, exFactors])⟩

/-! ## Claim C10 -/

theorem roundTo4_mem_bounds {x : ℚ} (h1 : 0.05 ≤ x) (h2 : x ≤ 1.07) :
    0.05 ≤ roundTo 4 x ∧ roundTo 4 x ≤ 1.07 := by
  constructor
  · have h := roundTo_mono 4 h1
    rwa [roundTo_of_mul_eq_intCast 4 (x := 0.05) (m := 500) (by norm_num)] at h
  · have h := roundTo_mono 4 h2
    rwa [roundTo_of_mul_eq_intCast 4 (x := 1.07) (m := 10700) (by norm_num)] at h

/-- C10: On every validated input, each of the eight adjustment factors in
the `SaturationFlowResult` lies in [0.05, 1.07] -- in particular every
factor is strictly positive -- so the unrounded adjusted and total
saturation flows are strictly positive. -/
theorem C10_factor_range_invariant (i : LaneGroupInput) (h : Valid i) :
    (0.05 ≤ (compute_saturation_flow i).f_w ∧
      (compute_saturation_flow i).f_w ≤ 1.07) ∧
    (0.05 ≤ (compute_saturation_flow i).f_hv ∧
      (compute_saturation_flow i).f_hv ≤ 1.07) ∧
    (0.05 ≤ (compute_saturation_flow i).f_g ∧
      (compute_saturation_flow i).f_g ≤ 1.07) ∧
    (0.05 ≤ (compute_saturation_flow i).f_p ∧
      (compute_saturation_flow i).f_p ≤ 1.07) ∧
    (0.05 ≤ (compute_saturation_flow i).f_bb ∧
      (compute_saturation_flow i).f_bb ≤ 1.07) ∧
    (0.05 ≤ (compute_saturation_flow i).f_a ∧
      (compute_saturation_flow i).f_a ≤ 1.07) ∧
    (0.05 ≤ (compute_saturation_flow i).f_lt ∧
      (compute_saturation_flow i).f_lt ≤ 1.07) ∧
    (0.05 ≤ (compute_saturation_flow i).f_rt ∧
      (compute_saturation_flow i).f_rt ≤ 1.07) ∧
    0 < s_adjusted_raw i ∧ 0 < s_adjusted_raw i * (i.num_lanes : ℚ) := by
  obtain ⟨-, hN, -, -, -, -, hhv1, hhv2, hg1, hg2, -, -, -, hlt1, hlt2, hrt1,
    -, -, -, -, -, -⟩ := id h
  have b1 := lane_width_factor_bounds i.lane_width
  have b2 := heavy_vehicle_factor_bounds hhv1 hhv2
  have b3 := grade_factor_bounds hg1 hg2
  have b4 := parking_factor_bounds i.parking_adjacent
    i.parking_maneuvers_per_hour i.num_lanes
  have b5 := bus_blockage_factor_bounds i.bus_stops_per_hour i.num_lanes
  have b6 := area_type_factor_bounds i.area_type
  have b7 := left_turn_factor_bounds i.movement_type hlt1 hlt2
  have b8 := right_turn_factor_bounds i.movement_type hrt1
  have hNpos : (0:ℚ) < (i.num_lanes : ℚ) := by
    have : (1:ℚ) ≤ (i.num_lanes : ℚ) := by exact_mod_cast hN
    linarith
  refine ⟨?_, ?_, ?_, ?_, ?_, ?_, ?_, ?_,
    s_adjusted_raw_pos h, mul_pos (s_adjusted_raw_pos h) hNpos⟩
  all_goals unfold compute_saturation_flow
  · exact roundTo4_mem_bounds (by linarith [b1.1]) b1.2
  · exact roundTo4_mem_bounds (by linarith [b2.1]) (by linarith [b2.2])
  · exact roundTo4_mem_bounds (by linarith [b3.1]) (by linarith [b3.2])
  · exact roundTo4_mem_bounds b4.1 (by linarith [b4.2])
  · exact roundTo4_mem_bounds b5.1 (by linarith [b5.2])
  · exact roundTo4_mem_bounds (by linarith [b6.1]) (by linarith [b6.2])
  · exact roundTo4_mem_bounds (by linarith [b7.1]) (by linarith [b7.2])
  · exact roundTo4_mem_bounds b8.1 (by linarith [b8.2])

/-- Witness for C10 at a validated input exercising all eight factors. -/
theorem C10_factor_range_invariant_witness :
    Valid exFactors ∧ 0 < s_adjusted_raw exFactors :=
  ⟨by norm_num [Valid, ValidTiming, exFactors],
   (C10_factor_range_invariant exFactors
     (by norm_num [Valid, ValidTiming, exFactors])).2.2.2.2.2.2.2.2.1⟩

/-! ## Claim C4 -/

/-- C4: For every `vc_ratio X ≥ 0`, `capacity c > 0`, `analysis period
T > 0`, filtering factor `0 ≤ I ≤ 1` and control type,
`compute_incremental_delay` returns
`round(max(0, 900*T*((X-1) + sqrt((X-1)^2 + 8*k*I*X/(c*T)))), 2)` with
`k = 0.45` for actuated-coordinated control and `k = 0.50` otherwise; the
returned value is never negative; and `compute_control_delay` returns a
total equal to `d1 + d2` rounded to 2 decimals. -/
theorem C4_incremental_delay_formula (X c T I : ℚ) (ct : SignalControlType)
    (hX : 0 ≤ X) (hc : 0 < c) (hT : 0 < T) (hI : 0 ≤ I) :
    (compute_incremental_delay X c T ct I =
      .ok (roundTo 2 (max 0 (900 * (T : ℝ) * (((X : ℝ) - 1) +
        Real.sqrt (((X : ℝ) - 1) ^ 2 +
          8 * (if ct = SignalControlType.actuated_coordinated then (0.45 : ℝ)
               else 0.5) * (I : ℝ) * (X : ℝ) / ((c : ℝ) * (T : ℝ)))))))) ∧
    (∀ d : ℝ, compute_incremental_delay X c T ct I = .ok d → 0 ≤ d) ∧
    (∀ g C : ℚ, 0 < C → ∀ d1 : ℚ, ∀ d2 td : ℝ,
      compute_control_delay g C X c T ct I = .ok (d1, d2, td) →
      td = roundTo 2 ((d1 : ℝ) + d2)) := by
  have hrad := radicand_nonneg ct hX hI hc hT
  have h3 : (((X - 1) ^ 2 +
        8 * get_incremental_delay_factor ct * I * X / (c * T) : ℚ) : ℝ) =
      ((X : ℝ) - 1) ^ 2 +
        8 * (if ct = SignalControlType.actuated_coordinated then (0.45 : ℝ)
             else 0.5) * (I : ℝ) * (X : ℝ) / ((c : ℝ) * (T : ℝ)) := by
    unfold get_incremental_delay_factor
    split_ifs <;> push_cast <;> ring
  refine ⟨?_, ?_, ?_⟩
  · rw [compute_incremental_delay_ok ct hc hT hrad]
    simp only [incrementalDelayVal]
    rw [h3]
  · intro d hd
    rw [compute_incremental_delay_ok ct hc hT hrad] at hd
    have h := Except.ok.inj hd
    rw [← h]
    exact incrementalDelayVal_nonneg X c T ct I
  · intro g C hC d1 d2 td hd
    rw [compute_control_delay_ok ct hC hc hT hrad] at hd
    simp only [Except.ok.injEq, Prod.mk.injEq] at hd
    obtain ⟨h1, h2, h3'⟩ := hd
    rw [← h1, ← h2, ← h3']

/-- Witness for C4 at X = 1, c = 400, T = 1/4, I = 1, pretimed control:
the square-root term is rational and d2 evaluates to 45.00 s. -/
theorem C4_incremental_delay_formula_witness :
    compute_incremental_delay 1 400 (1/4) SignalControlType.pretimed 1 =
      .ok 45 := by
  rw [(C4_incremental_delay_formula 1 400 (1/4) 1 SignalControlType.pretimed
    (by norm_num) (by norm_num) (by norm_num) (by norm_num)).1]
  congr 1
  rw [if_neg (by decide)]
  have hsq : (((1:ℚ) : ℝ) - 1) ^ 2 +
      8 * (0.5 : ℝ) * ((1:ℚ) : ℝ) * ((1:ℚ) : ℝ) / (((400:ℚ) : ℝ) * (((1:ℚ)/4 : ℚ) : ℝ)) =
      (1/5 : ℝ) ^ 2 := by
    push_cast
    norm_num
  rw [show (((1:ℚ)/4 : ℚ) : ℝ) = ((1/4 : ℚ) : ℝ) by norm_num] at hsq
  rw [hsq, Real.sqrt_sq (by norm_num)]
  rw [show (900 : ℝ) * ((1/4 : ℚ) : ℝ) * ((((1:ℚ) : ℝ) - 1) + 1/5) = 45 by
    push_cast; norm_num]
  rw [show max (0:ℝ) 45 = 45 by norm_num]
  exact roundTo_of_mul_eq_intCast 2 (m := 4500) (by norm_num)

/-! ## Evaluation helpers for the example inputs -/

theorem except_ok_bind {α β : Type} (a : α) (f : α → Except String β) :
    (Except.ok a : Except String α) >>= f = f a := rfl

theorem except_error_bind {α β : Type} (e : String) (f : α → Except String β) :
    (Except.error e : Except String α) >>= f = .error e := rfl

theorem left_turn_factor_through (p : ℚ) :
    compute_left_turn_factor .through p = 1 := by
  unfold compute_left_turn_factor
  rw [if_neg (by decide), if_neg (by decide)]

theorem right_turn_factor_through (p : ℚ) :
    compute_right_turn_factor .through p = 1 := by
  unfold compute_right_turn_factor
  rw [if_neg (by decide), if_neg (by decide)]

theorem s_adjusted_raw_plain {i : LaneGroupInput}
    (hw : i.lane_width = 12) (hhv : i.heavy_vehicle_pct = 0)
    (hg : i.grade_pct = 0) (hp : i.parking_adjacent = false)
    (hb : i.bus_stops_per_hour = 0) (ha : i.area_type = "other")
    (hm : i.movement_type = .through) :
    s_adjusted_raw i = i.base_saturation_flow := by
  unfold s_adjusted_raw
  rw [hw, hhv, hg, hp, hb, ha, hm, area_type_factor_other,
    left_turn_factor_through, right_turn_factor_through]
  unfold compute_lane_width_factor compute_heavy_vehicle_factor
    compute_grade_factor compute_parking_factor compute_bus_blockage_factor
  norm_num [min_def, max_def]

theorem satflow_exBase_total :
    (compute_saturation_flow exBase).total_saturation_flow = 3800 := by
  show roundTo 1 (s_adjusted_raw exBase * (exBase.num_lanes : ℚ)) = 3800
  rw [s_adjusted_raw_plain rfl rfl rfl rfl rfl rfl rfl,
    show exBase.base_saturation_flow * ((exBase.num_lanes : ℕ) : ℚ) = 3800 by
      norm_num [exBase]]
  exact roundTo_of_mul_eq_intCast 1 (m := 38000) (by norm_num)

theorem capOf_exBase : capOf exBase = 1688.9 := by
  unfold capOf
  rw [satflow_exBase_total,
    show (1688.9 : ℚ) = ((16889 : ℤ) : ℚ) / 10 ^ 1 by norm_num]
  apply roundTo_eq_div <;> norm_num [exBase]

theorem satflow_exTiny_total :
    (compute_saturation_flow exTiny).total_saturation_flow = 0 := by
  show roundTo 1 (s_adjusted_raw exTiny * (exTiny.num_lanes : ℚ)) = 0
  rw [s_adjusted_raw_plain rfl rfl rfl rfl rfl rfl rfl,
    show exTiny.base_saturation_flow * ((exTiny.num_lanes : ℕ) : ℚ) = 1/100 by
      norm_num [exTiny, exBase],
    show (0 : ℚ) = ((0 : ℤ) : ℚ) / 10 ^ 1 by norm_num]
  apply roundTo_eq_div <;> norm_num

theorem satflow_exZeroA_total :
    (compute_saturation_flow exZeroA).total_saturation_flow = 1900 := by
  show roundTo 1 (s_adjusted_raw exZeroA * (exZeroA.num_lanes : ℚ)) = 1900
  rw [s_adjusted_raw_plain rfl rfl rfl rfl rfl rfl rfl,
    show exZeroA.base_saturation_flow * ((exZeroA.num_lanes : ℕ) : ℚ) = 1900 by
      norm_num [exZeroA, exBase]]
  exact roundTo_of_mul_eq_intCast 1 (m := 19000) (by norm_num)

theorem capOf_exZeroA : capOf exZeroA = 1900 := by
  unfold capOf
  rw [satflow_exZeroA_total,
    show exZeroA.signal_timing.effective_green /
      exZeroA.signal_timing.cycle_length = 1 by norm_num [exZeroA], mul_one]
  exact roundTo_of_mul_eq_intCast 1 (m := 19000) (by norm_num)

theorem satflow_exZeroB_total :
    (compute_saturation_flow exZeroB).total_saturation_flow = 1900 := by
  show roundTo 1 (s_adjusted_raw exZeroB * (exZeroB.num_lanes : ℚ)) = 1900
  rw [s_adjusted_raw_plain rfl rfl rfl rfl rfl rfl rfl,
    show exZeroB.base_saturation_flow * ((exZeroB.num_lanes : ℕ) : ℚ) = 1900 by
      norm_num [exZeroB, exBase]]
  exact roundTo_of_mul_eq_intCast 1 (m := 19000) (by norm_num)

theorem capOf_exZeroB : capOf exZeroB = 6.3 := by
  unfold capOf
  rw [satflow_exZeroB_total,
    show (6.3 : ℚ) = ((63 : ℤ) : ℚ) / 10 ^ 1 by norm_num]
  apply roundTo_eq_div <;> norm_num [exZeroB, exBase]

/-! ## Claim C8 -/

/-- C8 (amended): on every validated input whose rounded capacity is
positive, the pipeline hits no error branch and returns the complete
result. -/
theorem C8_no_error_when_capacity_positive (i : LaneGroupInput)
    (h : Valid i) (hcap : 0 < capOf i) :
    compute_lane_group_results i = .ok (mkResult i) :=
  pipeline_ok h hcap

/-- Witness for C8 (amended) at the plain validated input. -/
theorem C8_no_error_when_capacity_positive_witness :
    Valid exBase ∧ 0 < capOf exBase ∧
    compute_lane_group_results exBase = .ok (mkResult exBase) :=
  ⟨by norm_num [Valid, ValidTiming, exBase],
   by rw [capOf_exBase]; norm_num,
   C8_no_error_when_capacity_positive exBase
     (by norm_num [Valid, ValidTiming, exBase])
     (by rw [capOf_exBase]; norm_num)⟩

/-- C8 counterexample: `exTiny` passes construction-time validation
(`base_saturation_flow = 0.01 > 0`), yet its rounded total saturation flow
is 0.0, the rounded capacity is 0.0, and `compute_vc_ratio` raises
"capacity must be positive" -- the pipeline does not return a complete
result for this validated input. -/
theorem C8_counterexample :
    Valid exTiny ∧
    compute_lane_group_results exTiny = .error "capacity must be positive" := by
  refine ⟨valid_exTiny, ?_⟩
  unfold compute_lane_group_results
  rw [compute_capacity_ok (by norm_num [exTiny, exBase])
    (by norm_num [exTiny, exBase]) (by norm_num [exTiny, exBase])
    (le_of_eq satflow_exTiny_total.symm), satflow_exTiny_total, zero_mul,
    roundTo_zero]
  simp only [except_ok_bind]
  unfold compute_vc_ratio
  rw [if_pos le_rfl]
  rfl

/-! ## Claim C9 -/

theorem incrementalDelayVal_zero (c T : ℚ) (ct : SignalControlType) (I : ℚ) :
    incrementalDelayVal 0 c T ct I = 0 := by
  simp only [incrementalDelayVal]
  have h3 : ((0 - 1 : ℚ) ^ 2 +
      8 * get_incremental_delay_factor ct * I * 0 / (c * T) : ℚ) = 1 := by
    norm_num
  rw [h3]
  norm_num [Real.sqrt_one, roundTo_zero]

theorem vcOf_zero {i : LaneGroupInput} (h0 : i.volume = 0) : vcOf i = 0 := by
  unfold vcOf
  rw [h0, zero_div, roundTo_zero]

theorem d1Of_round_idem (i : LaneGroupInput) :
    roundTo 2 (d1Of i) = d1Of i := by
  simp only [d1Of, uniformDelayVal]
  exact roundTo_idem 2 _

theorem tdOf_of_volume_zero {i : LaneGroupInput} (h0 : i.volume = 0) :
    tdOf i = ((d1Of i : ℚ) : ℝ) := by
  unfold tdOf d2Of
  rw [vcOf_zero h0, incrementalDelayVal_zero, add_zero, roundTo_ratCast,
    d1Of_round_idem]

/-- C9 (amended): on every validated input with `volume = 0` whose rounded
capacity is positive, the pipeline succeeds with `vc_ratio = 0.0`,
`incremental_delay = 0`, and a control delay equal to the uniform delay,
which is nonnegative (but can be 0, e.g. when green equals the cycle). -/
theorem C9_zero_volume_amended (i : LaneGroupInput) (h : Valid i)
    (h0 : i.volume = 0) (hcap : 0 < capOf i) :
    compute_lane_group_results i = .ok (mkResult i) ∧
    (mkResult i).vc_ratio = 0 ∧
    (mkResult i).incremental_delay = 0 ∧
    (mkResult i).control_delay = ((mkResult i).uniform_delay : ℚ) ∧
    0 ≤ (mkResult i).control_delay := by
  obtain ⟨-, -, -, -, -, -, -, -, -, -, -, -, -, -, -, -, -,
    ⟨hC, -, -, -⟩, -, -, -, -⟩ := id h
  have h2 : (mkResult i).incremental_delay = 0 := by
    show d2Of i = 0
    unfold d2Of
    rw [vcOf_zero h0, incrementalDelayVal_zero]
  have h4 : (mkResult i).control_delay = ((mkResult i).uniform_delay : ℚ) :=
    tdOf_of_volume_zero h0
  refine ⟨pipeline_ok h hcap, ?_, h2, h4, ?_⟩
  · show vcOf i = 0
    exact vcOf_zero h0
  · rw [h4]
    have := uniformDelayVal_nonneg i.signal_timing.effective_green hC (vcOf i)
    exact_mod_cast this

/-- Witness for C9 (amended) at `exZeroB` (volume 0, 1 s green in a
300 s cycle). -/
theorem C9_zero_volume_amended_witness :
    Valid exZeroB ∧ exZeroB.volume = 0 ∧ 0 < capOf exZeroB ∧
    (mkResult exZeroB).vc_ratio = 0 ∧
    (mkResult exZeroB).incremental_delay = 0 := by
  have hv : Valid exZeroB := by norm_num [Valid, ValidTiming, exZeroB, exBase]
  have hcap : 0 < capOf exZeroB := by
    rw [capOf_exZeroB]
    norm_num
  have h := C9_zero_volume_amended exZeroB hv rfl hcap
  exact ⟨hv, rfl, hcap, h.2.1, h.2.2.1⟩

/-! ### Evaluation of the two C9 counterexample inputs -/

theorem d1Of_exZeroA : d1Of exZeroA = 0 := by
  have hvc : vcOf exZeroA = 0 := vcOf_zero rfl
  show uniformDelayVal exZeroA.signal_timing.effective_green
    exZeroA.signal_timing.cycle_length (vcOf exZeroA) = 0
  rw [hvc]
  simp only [uniformDelayVal]
  rw [show exZeroA.signal_timing.effective_green /
      exZeroA.signal_timing.cycle_length = 1 by norm_num [exZeroA]]
  norm_num [roundTo_zero]

theorem tdOf_exZeroA : tdOf exZeroA = 0 := by
  rw [tdOf_of_volume_zero rfl, d1Of_exZeroA]
  norm_num

theorem d1Of_exZeroB : d1Of exZeroB = 149 := by
  have hvc : vcOf exZeroB = 0 := vcOf_zero rfl
  show uniformDelayVal exZeroB.signal_timing.effective_green
    exZeroB.signal_timing.cycle_length (vcOf exZeroB) = 149
  rw [hvc]
  simp only [uniformDelayVal]
  rw [show exZeroB.signal_timing.effective_green /
      exZeroB.signal_timing.cycle_length = 1/300 by norm_num [exZeroB],
    show exZeroB.signal_timing.cycle_length = 300 from rfl]
  rw [if_neg (by norm_num [min_def])]
  rw [show (min 1 (0:ℚ)) = 0 by norm_num [min_def]]
  rw [show (149 : ℚ) = ((14900 : ℤ) : ℚ) / 10 ^ 2 by norm_num]
  apply roundTo_eq_div <;> norm_num

theorem tdOf_exZeroB : tdOf exZeroB = 149 := by
  rw [tdOf_of_volume_zero rfl, d1Of_exZeroB]
  norm_num

/-- C9 counterexample: two validated zero-volume inputs refute the claim.
With green equal to the cycle (`exZeroA`) the control delay is exactly 0,
not strictly positive; with a 1 s green in a 300 s cycle (`exZeroB`) the
uniform delay is 149 s and the LOS grade is F, not in {A, B}. -/
theorem C9_counterexample :
    (Valid exZeroA ∧ exZeroA.volume = 0 ∧
      compute_lane_group_results exZeroA = .ok (mkResult exZeroA) ∧
      ¬ 0 < (mkResult exZeroA).control_delay) ∧
    (Valid exZeroB ∧ exZeroB.volume = 0 ∧
      compute_lane_group_results exZeroB = .ok (mkResult exZeroB) ∧
      (mkResult exZeroB).los = .F) := by
  have hcapA : 0 < capOf exZeroA := by
    rw [capOf_exZeroA]
    norm_num
  have hcapB : 0 < capOf exZeroB := by
    rw [capOf_exZeroB]
    norm_num
  refine ⟨⟨valid_exZeroA, rfl, pipeline_ok valid_exZeroA hcapA, ?_⟩,
    ⟨valid_exZeroB, rfl, pipeline_ok valid_exZeroB hcapB, ?_⟩⟩
  · show ¬ 0 < tdOf exZeroA
    rw [tdOf_exZeroA]
    norm_num
  · show losOf (tdOf exZeroB) = .F
    rw [tdOf_exZeroB]
    unfold losOf
    norm_num

/-! ## Claim C6: monotonicity in volume -/

theorem uniformDelayVal_mono {g C X1 X2 : ℚ} (hC : 0 < C) (hg : 0 ≤ g)
    (h12 : X1 ≤ X2) : uniformDelayVal g C X1 ≤ uniformDelayVal g C X2 := by
  simp only [uniformDelayVal]
  apply roundTo_mono
  have hgC0 : 0 ≤ g / C := div_nonneg hg hC.le
  have hnum : 0 ≤ 0.5 * C * (1 - g / C) ^ 2 := by positivity
  have hden : 1 - min 1 X2 * (g / C) ≤ 1 - min 1 X1 * (g / C) := by
    have := mul_le_mul_of_nonneg_right (min_le_min (le_refl (1:ℚ)) h12) hgC0
    linarith
  have hite : ∀ d : ℚ, (if d ≤ 0.001 then (0.001 : ℚ) else d) = max d 0.001 := by
    intro d
    split_ifs with hd
    · exact (max_eq_right hd).symm
    · exact (max_eq_left (le_of_not_le hd)).symm
  rw [hite, hite]
  have h1 : (0:ℚ) < max (1 - min 1 X2 * (g / C)) 0.001 :=
    lt_of_lt_of_le (by norm_num) (le_max_right _ _)
  exact div_le_div_of_nonneg_left hnum h1 (max_le_max hden le_rfl)

theorem d2core_mono {a u1 u2 : ℝ} (ha : 0 ≤ a) (h1 : -1 ≤ u1) (h12 : u1 ≤ u2) :
    u1 + Real.sqrt (u1 ^ 2 + a * (u1 + 1)) ≤
      u2 + Real.sqrt (u2 ^ 2 + a * (u2 + 1)) := by
  have harg1 : 0 ≤ u1 ^ 2 + a * (u1 + 1) := by nlinarith
  have harg2 : 0 ≤ u2 ^ 2 + a * (u2 + 1) := by nlinarith
  set s1 := Real.sqrt (u1 ^ 2 + a * (u1 + 1)) with hs1def
  set s2 := Real.sqrt (u2 ^ 2 + a * (u2 + 1)) with hs2def
  have hs1nn : 0 ≤ s1 := Real.sqrt_nonneg _
  have hs2nn : 0 ≤ s2 := Real.sqrt_nonneg _
  have hs1sq : s1 ^ 2 = u1 ^ 2 + a * (u1 + 1) := Real.sq_sqrt harg1
  have hs2sq : s2 ^ 2 = u2 ^ 2 + a * (u2 + 1) := Real.sq_sqrt harg2
  have habs1 : -u1 ≤ s1 := by
    rcases le_or_lt 0 u1 with h | h
    · linarith
    · have hle : Real.sqrt (u1 ^ 2) ≤ s1 := Real.sqrt_le_sqrt (by nlinarith)
      rw [Real.sqrt_sq_eq_abs] at hle
      calc -u1 ≤ |u1| := neg_le_abs u1
        _ ≤ s1 := hle
  have habs2 : -u2 ≤ s2 := by
    rcases le_or_lt 0 u2 with h | h
    · linarith
    · have hle : Real.sqrt (u2 ^ 2) ≤ s2 := Real.sqrt_le_sqrt (by nlinarith)
      rw [Real.sqrt_sq_eq_abs] at hle
      calc -u2 ≤ |u2| := neg_le_abs u2
        _ ≤ s2 := hle
  have hkey : (s1 + s2) * ((u2 + s2) - (u1 + s1)) =
      (u2 - u1) * ((s1 + u1) + (s2 + u2) + a) := by
    linear_combination hs2sq - hs1sq
  rcases eq_or_lt_of_le (add_nonneg hs1nn hs2nn) with hsum | hsum
  · have hz1 : s1 = 0 := by linarith
    have hz2 : s2 = 0 := by linarith
    rw [hz1, hz2]
    linarith
  · by_contra hcon
    push_neg at hcon
    have hneg : (s1 + s2) * ((u2 + s2) - (u1 + s1)) < 0 :=
      mul_neg_of_pos_of_neg hsum (by linarith)
    have hpos : 0 ≤ (u2 - u1) * ((s1 + u1) + (s2 + u2) + a) :=
      mul_nonneg (by linarith) (by linarith)
    linarith [hkey]

theorem incrementalDelayVal_mono {X1 X2 c T I : ℚ} (ct : SignalControlType)
    (hX1 : 0 ≤ X1) (h12 : X1 ≤ X2) (hc : 0 < c) (hT : 0 < T) (hI : 0 ≤ I) :
    incrementalDelayVal X1 c T ct I ≤ incrementalDelayVal X2 c T ct I := by
  simp only [incrementalDelayVal]
  apply roundTo_mono
  apply max_le_max le_rfl
  have hk := get_incremental_delay_factor_pos ct
  have harg : ∀ X : ℚ,
      (((X - 1) ^ 2 +
          8 * get_incremental_delay_factor ct * I * X / (c * T) : ℚ) : ℝ) =
        ((X : ℝ) - 1) ^ 2 +
          ((8 * get_incremental_delay_factor ct * I / (c * T) : ℚ) : ℝ) *
            (((X : ℝ) - 1) + 1) := by
    intro X
    push_cast
    ring
  rw [harg X1, harg X2]
  have ha : 0 ≤ ((8 * get_incremental_delay_factor ct * I / (c * T) : ℚ) : ℝ) := by
    have h : (0:ℚ) ≤ 8 * get_incremental_delay_factor ct * I / (c * T) := by
      positivity
    exact_mod_cast h
  have h900 : (0:ℝ) ≤ 900 * (T : ℝ) := by
    have : (0:ℝ) ≤ (T : ℝ) := by exact_mod_cast hT.le
    linarith
  apply mul_le_mul_of_nonneg_left _ h900
  have hX1R : (0:ℝ) ≤ (X1 : ℝ) := by exact_mod_cast hX1
  have h12R : (X1 : ℝ) ≤ (X2 : ℝ) := by exact_mod_cast h12
  exact d2core_mono ha (by linarith) (by linarith)

/-- C6: For a validated input and a larger volume (all other fields
fixed), the pipeline succeeds on both inputs (given positive rounded
capacity, which volume does not affect) and the larger volume never
decreases `vc_ratio` or `control_delay`. -/
theorem C6_monotone_in_volume (i : LaneGroupInput) (v2 : ℚ) (h : Valid i)
    (hv : i.volume ≤ v2) (hcap : 0 < capOf i) :
    compute_lane_group_results i = .ok (mkResult i) ∧
    compute_lane_group_results {i with volume := v2} =
      .ok (mkResult {i with volume := v2}) ∧
    (mkResult i).vc_ratio ≤ (mkResult {i with volume := v2}).vc_ratio ∧
    (mkResult i).control_delay ≤
      (mkResult {i with volume := v2}).control_delay := by
  have h2 : Valid {i with volume := v2} := ⟨le_trans h.1 hv, h.2⟩
  have hcapeq : capOf {i with volume := v2} = capOf i := rfl
  obtain ⟨hvol, -, -, -, -, -, -, -, -, -, -, -, -, -, -, -, -,
    ⟨hC, -, hg, -⟩, hT, -, hI, -⟩ := id h
  have hvc : vcOf i ≤ vcOf {i with volume := v2} := by
    unfold vcOf
    exact roundTo_mono 4 (div_le_div_of_nonneg_right hv hcap.le)
  have hvc0 : 0 ≤ vcOf i := by
    unfold vcOf
    exact roundTo_nonneg 4 (div_nonneg hvol hcap.le)
  have hd1 : d1Of i ≤ d1Of {i with volume := v2} :=
    uniformDelayVal_mono hC hg.le hvc
  have hd2 : d2Of i ≤ d2Of {i with volume := v2} :=
    incrementalDelayVal_mono i.signal_timing.control_type hvc0 hvc hcap hT hI
  have htd : tdOf i ≤ tdOf {i with volume := v2} := by
    unfold tdOf
    apply roundTo_mono
    have hd1R : ((d1Of i : ℚ) : ℝ) ≤ ((d1Of {i with volume := v2} : ℚ) : ℝ) := by
      exact_mod_cast hd1
    linarith
  exact ⟨pipeline_ok h hcap, pipeline_ok h2 (hcapeq ▸ hcap), hvc, htd⟩

/-- Witness for C6 at the plain input with volume raised from 800 to 900. -/
theorem C6_monotone_in_volume_witness :
    Valid exBase ∧ exBase.volume ≤ 900 ∧ 0 < capOf exBase ∧
    (mkResult exBase).vc_ratio ≤
      (mkResult {exBase with volume := 900}).vc_ratio ∧
    (mkResult exBase).control_delay ≤
      (mkResult {exBase with volume := 900}).control_delay := by
  have hv : Valid exBase := by norm_num [Valid, ValidTiming, exBase]
  have hcap : 0 < capOf exBase := by
    rw [capOf_exBase]
    norm_num
  have h := C6_monotone_in_volume exBase 900 hv (by norm_num [exBase]) hcap
  exact ⟨hv, by norm_num [exBase], hcap, h.2.2.1, h.2.2.2⟩

end HCM
